import Mathlib

/-!
# Task Lifecycle & Recurrence Engine — verification development

A shallow embedding of the core logic of `employeeTracker.py`:
the recurrence-date calculator (`get_next_schedule_date`), the recurring-task
materializer (`process_recurring_tasks`), the archival sweep
(`run_auto_archive`), the task-update operation (`update_task_details`) and the
employee visibility predicate.

Dates are modelled as integers counting days; day 0 is taken to be Monday
2024-01-01, so that `d % 7` coincides with Python's `date.weekday()`
convention (Monday = 0, ..., Sunday = 6).  SQL rows become Lean structures and
the two tables become lists; the `SERIAL` primary key becomes an explicit
`next_task_id` counter.  `UPDATE ... WHERE id = x` becomes a map over the list
touching the rows whose `id` equals `x`.
-/

namespace Tracker

/-- Helper for `pySplit`: walks the character list, cutting at each
separator occurrence; `acc` holds the characters of the current piece in
reverse. -/
def split_aux (sep : Char) : List Char → List Char → List String
  | [], acc => [String.mk acc.reverse]
  | c :: cs, acc =>
      if c = sep then String.mk acc.reverse :: split_aux sep cs []
      else split_aux sep cs (c :: acc)

/-- Python's `s.split(sep)` for a one-character separator: cuts at every
occurrence of `sep`, never merges adjacent separators, and returns `[""]`
on the empty string — exactly CPython's semantics for a non-empty `sep`. -/
def pySplit (s : String) (sep : Char) : List String :=
  split_aux sep s.data []

/-- Python's `s.strip()`: removes leading and trailing whitespace. -/
def pyStrip (s : String) : String :=
  String.mk
    (((s.data.dropWhile Char.isWhitespace).reverse.dropWhile
        Char.isWhitespace).reverse)

/-- The weekday-name table of `get_next_schedule_date` (`day_map` in the
source): `{"Mon": 0, "Tue": 1, "Wed": 2, "Thu": 3, "Fri": 4, "Sat": 5,
"Sun": 6}`; a token not in the table is dropped by the comprehension's
`if d in day_map` guard, modelled by returning `none`. -/
def day_map (s : String) : Option Nat :=
  if s = "Mon" then some 0
  else if s = "Tue" then some 1
  else if s = "Wed" then some 2
  else if s = "Thu" then some 3
  else if s = "Fri" then some 4
  else if s = "Sat" then some 5
  else if s = "Sun" then some 6
  else none

/-- `sorted([day_map[d] for d in days_list_str.split(',') if d in day_map])`:
the `target_days` list of the source. -/
def target_days_of (s : String) : List Nat :=
  List.insertionSort (· ≤ ·) ((pySplit s ',').filterMap day_map)

/-- Python truthiness of the `days_list_str` argument: `None` and the empty
string are falsy. -/
def truthy : Option String → Bool
  | none => false
  | some s => s ≠ ""

/-- `get_next_schedule_date(start_date, frequency, days_list_str)` from the
source: Daily → +1, Weekly → +7 (one week), Monthly → +30, "Specific Days"
with a truthy day string → next listed weekday strictly after the current
one, wrapping to `(6 - cw) + 1 + target_days[0]` days ahead when no listed
day lies later in the current week; every other case falls through to +1. -/
def get_next_schedule_date (start_date : Int) (frequency : String)
    (days_list_str : Option String) : Int :=
  if frequency = "Daily" then start_date + 1
  else if frequency = "Weekly" then start_date + 7
  else if frequency = "Monthly" then start_date + 30
  else if frequency = "Specific Days" ∧ truthy days_list_str = true then
    let target_days := target_days_of (days_list_str.getD "")
    if target_days = [] then start_date + 1
    else
      let current_weekday : Nat := (start_date % 7).toNat
      match target_days.find? (fun d => decide (current_weekday < d)) with
      | some day_idx => start_date + ((day_idx : Int) - (current_weekday : Int))
      | none =>
          start_date + ((6 - (current_weekday : Int)) + 1 + (target_days.headD 0 : Int))
  else start_date + 1

/-- A row of the `tasks` table. -/
structure Task where
  id : Nat
  task_name : String
  department : String
  assignee : String
  status : String
  deadline : Int
  total_items : Int
  completed_items : Int
  description : String
  file_path : Option String
  task_link : String
  is_archived : Int
deriving DecidableEq

/-- A row of the `recurring_templates` table. -/
structure Template where
  id : Nat
  task_name : String
  department : String
  assignee : String
  frequency : String
  days_of_week : Option String
  next_run_date : Int
  total_items : Int
  description : String
  task_link : String
deriving DecidableEq

/-- The database state the claims touch: the `tasks` and
`recurring_templates` tables, the `statuses` vocabulary table, and the
`SERIAL` counter assigning ids to new tasks. -/
structure DB where
  tasks : List Task
  templates : List Template
  statuses : List String
  next_task_id : Nat
deriving DecidableEq

/-- The task row the materializer's `INSERT INTO tasks` builds from a due
template `t`: status is the literal `"To Do"`, deadline is the template's
current `next_run_date`, `completed_items` and `is_archived` are the literal
`0`, `file_path` is absent, and the remaining fields are copied from `t`. -/
def task_from_template (tid : Nat) (t : Template) : Task :=
  { id := tid
    task_name := t.task_name
    department := t.department
    assignee := t.assignee
    status := "To Do"
    deadline := t.next_run_date
    total_items := t.total_items
    completed_items := 0
    description := t.description
    file_path := none
    task_link := t.task_link
    is_archived := 0 }

/-- `UPDATE recurring_templates SET next_run_date = %s WHERE id = %s`. -/
def update_template_date (tid : Nat) (d : Int) (ts : List Template) :
    List Template :=
  ts.map fun u => if u.id = tid then { u with next_run_date := d } else u

/-- `process_recurring_tasks()` from the source, with `date.today()` made an
explicit `today` parameter: snapshot the templates with
`next_run_date <= today`, then for each one insert the materialized task,
advance that template's `next_run_date` via `get_next_schedule_date`, and
count it.  Returns the new state and the count (the source returns
`tasks_created` when positive and `0` otherwise, which is the count in every
case).  `materialize_step` is one iteration of the `for row in
due_templates` loop. -/
def materialize_step (acc : DB × Nat) (t : Template) : DB × Nat :=
  ({ acc.1 with
      tasks := acc.1.tasks ++ [task_from_template acc.1.next_task_id t]
      templates :=
        update_template_date t.id
          (get_next_schedule_date t.next_run_date t.frequency t.days_of_week)
          acc.1.templates
      next_task_id := acc.1.next_task_id + 1 },
    acc.2 + 1)

def process_recurring_tasks (today : Int) (db : DB) : DB × Nat :=
  (db.templates.filter fun t => decide (t.next_run_date ≤ today)).foldl
    materialize_step (db, 0)

/-- The effect on one template row `v` of the `UPDATE ... WHERE id = t.id`
issued while processing due template `t`: touched exactly when the ids
match. -/
def touch (t : Template) (v : Template) : Template :=
  if v.id = t.id then
    { v with next_run_date :=
        get_next_schedule_date t.next_run_date t.frequency t.days_of_week }
  else v

/-- The `WHERE` predicate of `run_auto_archive`:
`status = 'Done' AND deadline < today - 30 AND is_archived = 0`
(`cutoff_date = date.today() - timedelta(days=30)`). -/
def archive_pred (today : Int) (t : Task) : Bool :=
  t.status = "Done" && t.deadline < today - 30 && t.is_archived = 0

/-- `run_auto_archive()` from the source, with `date.today()` made an
explicit parameter: `UPDATE tasks SET is_archived = 1 WHERE ...` returning
the updated table and `rowcount` (the number of rows matched). -/
def run_auto_archive (today : Int) (tasks : List Task) : List Task × Nat :=
  (tasks.map fun t =>
      if archive_pred today t then { t with is_archived := 1 } else t,
    (tasks.filter (archive_pred today)).length)

/-- `update_task_details(task_id, new_status, new_completed, new_link,
new_desc, new_uploaded_file)` from the source: unconditionally sets
`status`, `completed_items` and `description` on the row with the given id;
sets `file_path` only when a new file URL exists and `task_link` only when
`new_link` is truthy (non-empty). -/
def update_task_details (task_id : Nat) (new_status : String)
    (new_completed : Int) (new_link : String) (new_desc : String)
    (new_file_url : Option String) (tasks : List Task) : List Task :=
  tasks.map fun t =>
    if t.id = task_id then
      { t with
          status := new_status
          completed_items := new_completed
          description := new_desc
          file_path := match new_file_url with
            | some u => some u
            | none => t.file_path
          task_link := if new_link ≠ "" then new_link else t.task_link }
    else t

/-- The employee-role visibility test of `main`:
`username in [a.strip() for a in assignee_field.split(',')]`. -/
def visible_to_employee (username : String) (assignee_field : String) : Bool :=
  ((pySplit assignee_field ',').map pyStrip).contains username

/-! ## Concrete rows and states used by the scenario claims

Dates count days from Monday 2024-01-01 (day 0), so day 7 is 2024-01-08,
day 14 is 2024-01-15. -/

/-- A weekly template whose `next_run_date` is 2024-01-01 (day 0). -/
def c1_template : Template where
  id := 1
  task_name := "weekly report"
  department := "Engineering"
  assignee := "alice"
  frequency := "Weekly"
  days_of_week := none
  next_run_date := 0
  total_items := 5
  description := ""
  task_link := ""

/-- The end-to-end-scenario state: one weekly template due 2024-01-01. -/
def c1_db : DB where
  tasks := []
  templates := [c1_template]
  statuses := ["To Do", "In Progress", "Review", "Done"]
  next_task_id := 1

/-- A task currently satisfying the progress invariant (3 of 5 done). -/
def c2_task : Task where
  id := 1
  task_name := "report"
  department := "Engineering"
  assignee := "alice"
  status := "In Progress"
  deadline := 10
  total_items := 5
  completed_items := 3
  description := ""
  file_path := none
  task_link := ""
  is_archived := 0

/-- `c2_task` after an update proposing status "Done" and 4 completed
units. -/
def c2_task_updated : Task :=
  { c2_task with status := "Done", completed_items := 4 }

/-- A daily template used to probe the materializer's status choice. -/
def c3_template : Template where
  id := 1
  task_name := "standup"
  department := "HR"
  assignee := "alice"
  frequency := "Daily"
  days_of_week := none
  next_run_date := 0
  total_items := 1
  description := ""
  task_link := ""

/-- A state whose status vocabulary does not contain "To Do" at all, so no
convention can make "To Do" its initial/default value. -/
def c3_db : DB where
  tasks := []
  templates := [c3_template]
  statuses := ["Backlog", "Doing", "Finished"]
  next_task_id := 1

/-- A second template, not yet due on day 7. -/
def c7_template : Template where
  id := 2
  task_name := "monthly audit"
  department := "Operations"
  assignee := "bob"
  frequency := "Monthly"
  days_of_week := none
  next_run_date := 20
  total_items := 3
  description := ""
  task_link := ""

/-- A state with one due and one not-yet-due template (distinct ids). -/
def c7_db : DB where
  tasks := []
  templates := [c1_template, c7_template]
  statuses := ["To Do", "In Progress", "Review", "Done"]
  next_task_id := 1

/-! ## Helper lemmas about the calculator -/

theorem target_days_of_sorted (s : String) :
    (target_days_of s).Sorted (· ≤ ·) :=
  List.sorted_insertionSort _ _

/-- On an ascending list, `find?` with a predicate `c < ·` returns the least
element above `c`. -/
theorem find?_sorted_eq_min (c m : Nat) :
    ∀ T : List Nat, T.Sorted (· ≤ ·) → m ∈ T → c < m →
      (∀ d ∈ T, c < d → m ≤ d) →
      T.find? (fun d => decide (c < d)) = some m := by
  intro T
  induction T with
  | nil => intro _ hm; cases hm
  | cons a rest ih =>
    intro hs hm hcm hmin
    rcases List.sorted_cons.mp hs with ⟨ha, hrest⟩
    by_cases hca : c < a
    · have h1 : m ≤ a := hmin a (List.mem_cons_self a rest) hca
      have h2 : a ≤ m := by
        rcases List.mem_cons.mp hm with h | h
        · exact h ▸ le_refl a
        · exact ha m h
      rw [List.find?_cons_of_pos _ (by simpa using hca), le_antisymm h2 h1]
    · have hma : m ≠ a := fun h => hca (h ▸ hcm)
      have hm' : m ∈ rest := by
        rcases List.mem_cons.mp hm with h | h
        · exact absurd h hma
        · exact h
      rw [List.find?_cons_of_neg _ (by simpa using hca)]
      exact ih hrest hm' hcm fun d hd hcd =>
        hmin d (List.mem_cons_of_mem a hd) hcd

/-- Unfolding of `get_next_schedule_date` in the "Specific Days" branch with
a day string whose parsed weekday list is non-empty. -/
theorem gnsd_specific_days (start : Int) (s : String)
    (hne : target_days_of s ≠ []) :
    get_next_schedule_date start "Specific Days" (some s) =
      match (target_days_of s).find?
          (fun d => decide ((start % 7).toNat < d)) with
      | some day_idx =>
          start + ((day_idx : Int) - (((start % 7).toNat : Nat) : Int))
      | none =>
          start + ((6 - (((start % 7).toNat : Nat) : Int)) + 1
            + (((target_days_of s).headD 0 : Nat) : Int)) := by
  have hs : s ≠ "" := by
    intro h
    rw [h] at hne
    exact hne (by decide)
  rw [get_next_schedule_date]
  rw [if_neg (by decide), if_neg (by decide), if_neg (by decide),
    if_pos ⟨rfl, by simpa [truthy] using hs⟩]
  simp only [Option.getD_some]
  rw [if_neg hne]

/-! ## The claims -/

/-- **C4**: for "Specific Days" with a non-empty parsed weekday list and
reference weekday `cw = (start % 7).toNat`: when some listed day `d`
satisfies `d > cw` the result is `start + (smallest such d − cw)` days;
otherwise it is `start + (6 − cw) + 1 + min W` days.  In particular for the
day set `{Wed, Fri}` and a Monday reference date the result is the
Wednesday of the same week (2 days ahead). -/
theorem C4_specific_weekdays (start : Int) (s : String)
    (hne : target_days_of s ≠ []) :
    ((∀ m ∈ target_days_of s, (start % 7).toNat < m →
        (∀ d ∈ target_days_of s, (start % 7).toNat < d → m ≤ d) →
        get_next_schedule_date start "Specific Days" (some s)
          = start + ((m : Int) - (((start % 7).toNat : Nat) : Int)))
      ∧ ((∀ d ∈ target_days_of s, ¬ (start % 7).toNat < d) →
        ∀ m0 ∈ target_days_of s, (∀ d ∈ target_days_of s, m0 ≤ d) →
        get_next_schedule_date start "Specific Days" (some s)
          = start + ((6 - (((start % 7).toNat : Nat) : Int)) + 1 + (m0 : Int))))
    ∧ (∀ d0 : Int, d0 % 7 = 0 →
        get_next_schedule_date d0 "Specific Days" (some "Wed,Fri") = d0 + 2) := by
  refine ⟨⟨?_, ?_⟩, ?_⟩
  · intro m hm hcm hmin
    rw [gnsd_specific_days start s hne,
      find?_sorted_eq_min _ m _ (target_days_of_sorted s) hm hcm hmin]
  · intro hnone m0 hm0 hmin0
    have hfind : (target_days_of s).find?
        (fun d => decide ((start % 7).toNat < d)) = none := by
      rw [List.find?_eq_none]
      intro x hx
      simpa using hnone x hx
    rw [gnsd_specific_days start s hne, hfind]
    rcases List.exists_cons_of_ne_nil hne with ⟨t, rest, ht⟩
    have hhead : (target_days_of s).headD 0 = t := by rw [ht]; rfl
    have htm : t = m0 := by
      have hs := target_days_of_sorted s
      rw [ht] at hs
      have h1 : m0 ≤ t := hmin0 t (by rw [ht]; exact List.mem_cons_self t rest)
      have h2 : t ≤ m0 := by
        rw [ht] at hm0
        rcases List.mem_cons.mp hm0 with h | h
        · exact h ▸ le_refl t
        · exact List.rel_of_sorted_cons hs m0 h
      exact le_antisymm h2 h1
    rw [hhead, htm]
  · intro d0 h
    have ht : target_days_of "Wed,Fri" = [2, 4] := by decide
    rw [gnsd_specific_days d0 "Wed,Fri" (by decide), ht]
    have hcw : ((d0 % 7).toNat : Nat) = 0 := by rw [h]; rfl
    rw [hcw]
    norm_num

/-- Witness for C4: day set "Wed,Fri" from a Monday (day 0): the smallest
listed day above Monday is Wednesday (2), giving day 0 + 2. -/
theorem C4_specific_weekdays_witness :
    target_days_of "Wed,Fri" ≠ []
    ∧ get_next_schedule_date 0 "Specific Days" (some "Wed,Fri")
        = 0 + ((2 : Int) - ((((0 : Int) % 7).toNat : Nat) : Int))
    ∧ get_next_schedule_date 0 "Specific Days" (some "Wed,Fri") = 0 + 2 :=
  ⟨by decide,
    (C4_specific_weekdays 0 "Wed,Fri" (by decide)).1.1 2 (by decide) (by decide)
      (by decide),
    (C4_specific_weekdays 0 "Wed,Fri" (by decide)).2 0 (by decide)⟩

/-- **C8**: Daily, Weekly and Monthly are fixed offsets of +1, +7 and +30
days (Monthly deliberately not calendar-month arithmetic), for every
reference date and independent of the weekday-set argument. -/
theorem C8_fixed_offsets (d : Int) (ds : Option String) :
    get_next_schedule_date d "Daily" ds = d + 1
    ∧ get_next_schedule_date d "Weekly" ds = d + 7
    ∧ get_next_schedule_date d "Monthly" ds = d + 30 :=
  ⟨rfl, rfl, rfl⟩

/-- **C9**: the calculator never fails on malformed input: "Specific Days"
with an absent, empty, or unparseable weekday string yields `+1` day, and
any unrecognized frequency string also yields `+1` day. -/
theorem C9_defensive_fallbacks (d : Int) (freq : String) (ds : Option String) :
    get_next_schedule_date d "Specific Days" none = d + 1
    ∧ get_next_schedule_date d "Specific Days" (some "") = d + 1
    ∧ (∀ s : String, target_days_of s = [] →
        get_next_schedule_date d "Specific Days" (some s) = d + 1)
    ∧ (freq ≠ "Daily" → freq ≠ "Weekly" → freq ≠ "Monthly" →
        freq ≠ "Specific Days" → get_next_schedule_date d freq ds = d + 1) := by
  refine ⟨rfl, rfl, ?_, ?_⟩
  · intro s hs
    by_cases he : s = ""
    · rw [he]
      rfl
    · rw [get_next_schedule_date]
      rw [if_neg (by decide), if_neg (by decide), if_neg (by decide),
        if_pos ⟨rfl, by simpa [truthy] using he⟩]
      simp only [Option.getD_some]
      rw [if_pos hs]
  · intro h1 h2 h3 h4
    rw [get_next_schedule_date]
    rw [if_neg h1, if_neg h2, if_neg h3, if_neg (fun hc => h4 hc.1)]

/-- Witness for C9: a weekday string with only unrecognized tokens and an
unrecognized frequency both fall back to `+1` day. -/
theorem C9_defensive_fallbacks_witness :
    target_days_of "Xyz" = []
    ∧ get_next_schedule_date 0 "Specific Days" (some "Xyz") = 0 + 1
    ∧ get_next_schedule_date 0 "Fortnightly" none = 0 + 1 :=
  ⟨by decide,
    (C9_defensive_fallbacks 0 "Fortnightly" none).2.2.1 "Xyz" (by decide),
    (C9_defensive_fallbacks 0 "Fortnightly" none).2.2.2 (by decide) (by decide)
      (by decide) (by decide)⟩

/-- **C10**: for every reference date, frequency string and weekday-set
argument, the calculator's result is at least one day after the reference
date, so advancing a template always moves its schedule strictly
forward. -/
theorem C10_strictly_forward (d : Int) (freq : String) (ds : Option String) :
    d + 1 ≤ get_next_schedule_date d freq ds := by
  rw [get_next_schedule_date]
  split
  · omega
  split
  · omega
  split
  · omega
  split
  · dsimp only
    split
    · omega
    · split
      · rename_i k hk
        have hk' : (d % 7).toNat < k := by simpa using List.find?_some hk
        omega
      · have h1 : 0 ≤ d % 7 := Int.emod_nonneg d (by norm_num)
        have h2 : d % 7 < 7 := Int.emod_lt_of_pos d (by norm_num)
        omega
  · omega

/-! ## Helper lemmas about the materializer's loop -/

/-- The loop counts one task per processed template. -/
theorem foldl_materialize_count (l : List Template) :
    ∀ (db : DB) (n : Nat),
      (l.foldl materialize_step (db, n)).2 = n + l.length := by
  induction l with
  | nil => intro db n; simp
  | cons t l ih =>
    intro db n
    simp only [List.foldl_cons, List.length_cons]
    rw [show materialize_step (db, n) t
        = ((materialize_step (db, n) t).1, n + 1) from rfl]
    rw [ih]
    omega

/-- The loop advances the id counter once per processed template. -/
theorem foldl_materialize_nid (l : List Template) :
    ∀ (db : DB) (n : Nat),
      (l.foldl materialize_step (db, n)).1.next_task_id
        = db.next_task_id + l.length := by
  induction l with
  | nil => intro db n; simp
  | cons t l ih =>
    intro db n
    simp only [List.foldl_cons, List.length_cons]
    rw [ih]
    simp [materialize_step]
    omega

/-- The loop never touches the status vocabulary. -/
theorem foldl_materialize_statuses (l : List Template) :
    ∀ (db : DB) (n : Nat),
      (l.foldl materialize_step (db, n)).1.statuses = db.statuses := by
  induction l with
  | nil => intro db n; rfl
  | cons t l ih =>
    intro db n
    simp only [List.foldl_cons]
    rw [ih]
    rfl

/-- The tasks appended by the loop: one materialized task per processed
template, with consecutive ids starting at the incoming counter. -/
theorem foldl_materialize_tasks (l : List Template) :
    ∀ (db : DB) (n : Nat),
      (l.foldl materialize_step (db, n)).1.tasks
        = db.tasks ++ ((List.range' db.next_task_id l.length).zip l).map
            (fun p => task_from_template p.1 p.2) := by
  induction l with
  | nil => intro db n; simp
  | cons t l ih =>
    intro db n
    simp only [List.foldl_cons, List.length_cons]
    rw [ih]
    rw [List.range'_succ, List.zip_cons_cons, List.map_cons]
    simp [materialize_step]

/-- The loop's effect on the template table is the fold of the individual
`UPDATE` statements. -/
theorem foldl_materialize_templates (l : List Template) :
    ∀ (db : DB) (n : Nat),
      (l.foldl materialize_step (db, n)).1.templates
        = l.foldl
            (fun ts t =>
              update_template_date t.id
                (get_next_schedule_date t.next_run_date t.frequency
                  t.days_of_week)
                ts)
            db.templates := by
  induction l with
  | nil => intro db n; rfl
  | cons t l ih =>
    intro db n
    simp only [List.foldl_cons]
    rw [ih]
    rfl

/-- A sequence of row-addressed `UPDATE`s acts independently on each row. -/
theorem foldl_update_eq_map (l : List Template) :
    ∀ ts : List Template,
      l.foldl
          (fun ts t =>
            update_template_date t.id
              (get_next_schedule_date t.next_run_date t.frequency
                t.days_of_week)
              ts)
          ts
        = ts.map (fun v => l.foldl (fun v t => touch t v) v) := by
  induction l with
  | nil => intro ts; simp
  | cons t l ih =>
    intro ts
    simp only [List.foldl_cons]
    rw [ih]
    rw [show update_template_date t.id
        (get_next_schedule_date t.next_run_date t.frequency t.days_of_week) ts
        = ts.map (touch t) from rfl]
    rw [List.map_map]
    rfl

/-- A row whose id matches none of the processed templates is untouched. -/
theorem foldl_touch_of_ne (l : List Template) :
    ∀ v : Template, (∀ t ∈ l, t.id ≠ v.id) →
      l.foldl (fun v t => touch t v) v = v := by
  induction l with
  | nil => intro v _; rfl
  | cons t l ih =>
    intro v h
    simp only [List.foldl_cons]
    rw [show touch t v = v from by
      rw [touch, if_neg]
      intro he
      exact h t (List.mem_cons_self t l) he.symm]
    exact ih v fun u hu => h u (List.mem_cons_of_mem t hu)

/-- A row processed once, among templates with pairwise distinct ids, ends
with its `next_run_date` advanced according to its own snapshot fields. -/
theorem foldl_touch_mem (l : List Template) :
    ∀ v : Template, v ∈ l → (l.map Template.id).Nodup →
      (∀ t ∈ l, t.id = v.id → t = v) →
      l.foldl (fun v t => touch t v) v
        = { v with next_run_date := (get_next_schedule_date v.next_run_date
              v.frequency v.days_of_week) } := by
  induction l with
  | nil => intro v hv; cases hv
  | cons t l ih =>
    intro v hv hnd hall
    simp only [List.map_cons, List.nodup_cons] at hnd
    simp only [List.foldl_cons]
    by_cases hid : v.id = t.id
    · have ht : t = v := hall t (List.mem_cons_self t l) hid.symm
      subst ht
      rw [touch, if_pos rfl]
      apply foldl_touch_of_ne
      intro u hu he
      exact hnd.1 (he ▸ List.mem_map_of_mem Template.id hu)
    · rw [show touch t v = v from by rw [touch, if_neg hid]]
      have hv' : v ∈ l := by
        rcases List.mem_cons.mp hv with h | h
        · exact absurd (h ▸ rfl) hid
        · exact h
      exact ih v hv' hnd.2 fun u hu hid' =>
        hall u (List.mem_cons_of_mem t hu) hid'

/-- When template ids are pairwise distinct, one materializer run advances
`next_run_date` on exactly the templates that were due and leaves the rest
untouched. -/
theorem process_templates_eq (today : Int) (db : DB)
    (hids : (db.templates.map Template.id).Nodup) :
    (process_recurring_tasks today db).1.templates
      = db.templates.map fun t =>
          if t.next_run_date ≤ today then
            { t with next_run_date := (get_next_schedule_date t.next_run_date
                t.frequency t.days_of_week) }
          else t := by
  rw [process_recurring_tasks, foldl_materialize_templates, foldl_update_eq_map]
  apply List.map_congr_left
  intro v hv
  by_cases hp : v.next_run_date ≤ today
  · rw [if_pos hp]
    apply foldl_touch_mem
    · exact List.mem_filter.mpr ⟨hv, by simpa using hp⟩
    · exact List.Nodup.sublist (List.Sublist.map Template.id
        (List.filter_sublist db.templates)) hids
    · intro t ht hid
      exact List.inj_on_of_nodup_map hids (List.mem_of_mem_filter ht) hv hid
  · rw [if_neg hp]
    apply foldl_touch_of_ne
    intro t ht hid
    have htv : t = v :=
      List.inj_on_of_nodup_map hids (List.mem_of_mem_filter ht) hv hid
    have hdue := (List.mem_filter.mp ht).2
    rw [htv] at hdue
    exact hp (by simpa using hdue)

/-- **C7**: one materializer invocation, on a state whose template ids are
pairwise distinct, selects exactly the templates with
`next_run_date ≤ today`; it appends one new task per selected template —
with `completed_items = 0`, deadline equal to the template's current
`next_run_date`, and name, department, assignee, total, description and
link copied from the template — advances each selected template's
`next_run_date` via the calculator, leaves the status vocabulary alone,
and returns the number of tasks created. -/
theorem C7_materializer (today : Int) (db : DB)
    (hids : (db.templates.map Template.id).Nodup) :
    (process_recurring_tasks today db).2
        = (db.templates.filter fun t => decide (t.next_run_date ≤ today)).length
    ∧ (process_recurring_tasks today db).1.tasks
        = db.tasks ++
          (((List.range' db.next_task_id
                (db.templates.filter fun t =>
                  decide (t.next_run_date ≤ today)).length).zip
              (db.templates.filter fun t =>
                decide (t.next_run_date ≤ today))).map
            fun p =>
              { id := p.1
                task_name := p.2.task_name
                department := p.2.department
                assignee := p.2.assignee
                status := "To Do"
                deadline := p.2.next_run_date
                total_items := p.2.total_items
                completed_items := 0
                description := p.2.description
                file_path := none
                task_link := p.2.task_link
                is_archived := 0 })
    ∧ (process_recurring_tasks today db).1.templates
        = db.templates.map (fun t =>
            if t.next_run_date ≤ today then
              { t with next_run_date := (get_next_schedule_date t.next_run_date
                  t.frequency t.days_of_week) }
            else t)
    ∧ (process_recurring_tasks today db).1.statuses = db.statuses := by
  refine ⟨?_, ?_, process_templates_eq today db hids, ?_⟩
  · rw [process_recurring_tasks, foldl_materialize_count]
    omega
  · rw [process_recurring_tasks, foldl_materialize_tasks]
    rfl
  · rw [process_recurring_tasks, foldl_materialize_statuses]

/-- Witness for C7: on the two-template state, the day-7 run creates
exactly one task (only the weekly template is due). -/
theorem C7_materializer_witness :
    (c7_db.templates.map Template.id).Nodup
    ∧ (process_recurring_tasks 7 c7_db).2
        = (c7_db.templates.filter fun t => decide (t.next_run_date ≤ 7)).length :=
  ⟨by decide, (C7_materializer 7 c7_db (by decide)).1⟩

/-- **C1 counterexample**: with the weekly template due 2024-01-01 (day 0)
and `today` = 2024-01-08 (day 7), the first run creates one task with
deadline day 0 and advances the template to day 7 — but because selection
uses `next_run_date ≤ today`, a second run with the same `today` selects
the template again and creates a further task, contradicting the claimed
"zero additional tasks". -/
theorem C1_counterexample :
    (process_recurring_tasks 7 c1_db).2 = 1
    ∧ (process_recurring_tasks 7 c1_db).1.tasks.map Task.deadline = [0]
    ∧ (process_recurring_tasks 7 c1_db).1.templates.map Template.next_run_date
        = [7]
    ∧ (process_recurring_tasks 7 (process_recurring_tasks 7 c1_db).1).2 ≠ 0 :=
  ⟨by decide, by decide, by decide, by decide⟩

/-- **C1 amended**: first run with today = day 7 creates one task with
deadline day 0 (2024-01-01) and advances the template's `next_run_date` to
day 7 (2024-01-08); a second run with the same today creates exactly one
further task, with deadline day 7 — the occurrence that is now due —
advancing the template to day 14 (2024-01-15); a third run with the same
today creates zero additional tasks and leaves the state unchanged. -/
theorem C1_amended_runs :
    ((process_recurring_tasks 7 c1_db).2 = 1
      ∧ (process_recurring_tasks 7 c1_db).1.tasks.map Task.deadline = [0]
      ∧ (process_recurring_tasks 7 c1_db).1.templates.map
          Template.next_run_date = [7])
    ∧ ((process_recurring_tasks 7 (process_recurring_tasks 7 c1_db).1).2 = 1
      ∧ (process_recurring_tasks 7
          (process_recurring_tasks 7 c1_db).1).1.tasks.map Task.deadline
          = [0, 7]
      ∧ (process_recurring_tasks 7
            (process_recurring_tasks 7 c1_db).1).1.templates.map
          Template.next_run_date = [14])
    ∧ (process_recurring_tasks 7 (process_recurring_tasks 7
        (process_recurring_tasks 7 c1_db).1).1).2 = 0
    ∧ (process_recurring_tasks 7 (process_recurring_tasks 7
          (process_recurring_tasks 7 c1_db).1).1).1
        = (process_recurring_tasks 7 (process_recurring_tasks 7 c1_db).1).1 :=
  ⟨⟨by decide, by decide, by decide⟩, ⟨by decide, by decide, by decide⟩,
    by decide, by decide⟩

/-- **C3 counterexample**: with the status vocabulary set to
`["Backlog", "Doing", "Finished"]` — a state in which no convention can
designate "To Do" as the initial/default status, since it is not even a
member — the materializer still creates its task with status "To Do". -/
theorem C3_counterexample :
    (process_recurring_tasks 0 c3_db).1.tasks.map Task.status = ["To Do"]
    ∧ "To Do" ∉ c3_db.statuses :=
  ⟨by decide, by decide⟩

/-- **C3 amended**: every task created by the materializer has its status
set to the fixed string constant "To Do", regardless of the contents of
the status vocabulary (the vocabulary is never consulted). -/
theorem C3_amended_status (today : Int) (db : DB) :
    ∀ t ∈ (process_recurring_tasks today db).1.tasks,
      t ∈ db.tasks ∨ t.status = "To Do" := by
  intro t ht
  rw [process_recurring_tasks, foldl_materialize_tasks] at ht
  rcases List.mem_append.mp ht with h | h
  · exact Or.inl h
  · rcases List.mem_map.mp h with ⟨p, _, hp⟩
    exact Or.inr (hp ▸ rfl)

/-- Witness for the amended C3: the task materialized from the probe
template is in the run's output and carries status "To Do". -/
theorem C3_amended_status_witness :
    task_from_template 1 c3_template ∈ (process_recurring_tasks 0 c3_db).1.tasks
    ∧ (task_from_template 1 c3_template ∈ c3_db.tasks
        ∨ (task_from_template 1 c3_template).status = "To Do") :=
  ⟨by decide,
    C3_amended_status 0 c3_db (task_from_template 1 c3_template) (by decide)⟩

/-- **C2 counterexample**: starting from a task satisfying the invariant
(3 of 5 done), an update proposing 10 completed units is neither rejected
nor clamped: the stored value becomes 10 while the total stays 5, breaking
`completed ≤ total`. -/
theorem C2_counterexample :
    0 ≤ c2_task.completed_items ∧ c2_task.completed_items ≤ c2_task.total_items
    ∧ (update_task_details 1 "In Progress" 10 "" "" none [c2_task]).map
        (fun t => (t.completed_items, t.total_items)) = [(10, 5)]
    ∧ ¬ (10 : Int) ≤ 5 :=
  ⟨by decide, by decide, by decide, by decide⟩

/-- **C2 amended**: the task-update operation stores the proposed completed
value verbatim on the targeted row (no rejection, no clamping); the
invariant `0 ≤ completed ≤ total` is preserved exactly when the caller's
proposed value already satisfies it for the targeted row. -/
theorem C2_amended_update (tasks : List Task) (tid : Nat)
    (st lk dsc : String) (v : Int) (fu : Option String)
    (hinv : ∀ t ∈ tasks,
      0 ≤ t.completed_items ∧ t.completed_items ≤ t.total_items)
    (hv : 0 ≤ v)
    (hvt : ∀ t ∈ tasks, t.id = tid → v ≤ t.total_items) :
    (∀ t ∈ update_task_details tid st v lk dsc fu tasks,
        0 ≤ t.completed_items ∧ t.completed_items ≤ t.total_items)
    ∧ (∀ t ∈ update_task_details tid st v lk dsc fu tasks,
        t.id = tid → t.completed_items = v) := by
  constructor
  · intro t ht
    rw [update_task_details] at ht
    rcases List.mem_map.mp ht with ⟨u, hu, hut⟩
    by_cases hid : u.id = tid
    · rw [if_pos hid] at hut
      rw [← hut]
      exact ⟨hv, hvt u hu hid⟩
    · rw [if_neg hid] at hut
      rw [← hut]
      exact hinv u hu
  · intro t ht htid
    rw [update_task_details] at ht
    rcases List.mem_map.mp ht with ⟨u, hu, hut⟩
    by_cases hid : u.id = tid
    · rw [if_pos hid] at hut
      rw [← hut]
    · rw [if_neg hid] at hut
      rw [← hut] at htid
      exact absurd htid hid

/-- Witness for the amended C2: an in-range update (4 of 5 done) lands
verbatim and keeps the invariant. -/
theorem C2_amended_update_witness :
    c2_task_updated ∈ update_task_details 1 "Done" 4 "" "" none [c2_task]
    ∧ 0 ≤ c2_task_updated.completed_items
    ∧ c2_task_updated.completed_items ≤ c2_task_updated.total_items :=
  ⟨by decide,
    ((C2_amended_update [c2_task] 1 "Done" "" "" 4 none (by decide) (by decide)
        (by decide)).1 c2_task_updated (by decide)).1,
    ((C2_amended_update [c2_task] 1 "Done" "" "" 4 none (by decide) (by decide)
        (by decide)).1 c2_task_updated (by decide)).2⟩

/-- **C5**: the archival sweep deletes no rows; it flags `is_archived = 1`
on exactly the tasks with status "Done", deadline more than 30 days before
`today`, and `is_archived = 0`, leaving every other task (in particular
every non-"Done" task, regardless of age) byte-for-byte unchanged; it
reports the number of rows it flagged; and re-running it with the same
`today` changes nothing and reports zero. -/
theorem C5_archival_sweep (today : Int) (tasks : List Task) :
    (run_auto_archive today tasks).1.length = tasks.length
    ∧ List.Forall₂
        (fun t u =>
          u = if t.status = "Done" ∧ t.deadline < today - 30 ∧ t.is_archived = 0
              then { t with is_archived := 1 } else t)
        tasks (run_auto_archive today tasks).1
    ∧ (run_auto_archive today tasks).2
        = (tasks.filter (archive_pred today)).length
    ∧ run_auto_archive today (run_auto_archive today tasks).1
        = ((run_auto_archive today tasks).1, 0) := by
  have hpred : ∀ t : Task, archive_pred today t = true
      ↔ (t.status = "Done" ∧ t.deadline < today - 30 ∧ t.is_archived = 0) := by
    intro t
    simp [archive_pred, and_assoc]
  have hfalse : ∀ u ∈ (run_auto_archive today tasks).1,
      archive_pred today u = false := by
    intro u hu
    rw [run_auto_archive] at hu
    rcases List.mem_map.mp hu with ⟨x, _, hxu⟩
    by_cases hx : archive_pred today x
    · rw [if_pos hx] at hxu
      rw [← hxu]
      simp [archive_pred]
    · rw [if_neg hx] at hxu
      rw [← hxu]
      exact Bool.of_not_eq_true hx
  refine ⟨by simp [run_auto_archive], ?_, rfl, ?_⟩
  · rw [run_auto_archive]
    rw [List.forall₂_map_right_iff]
    rw [List.forall₂_same]
    intro t _
    by_cases hx : archive_pred today t
    · rw [if_pos hx, if_pos ((hpred t).mp hx)]
    · rw [if_neg hx, if_neg (fun hc => hx ((hpred t).mpr hc))]
  · rw [show run_auto_archive today (run_auto_archive today tasks).1
        = ((run_auto_archive today tasks).1.map (fun t =>
              if archive_pred today t then { t with is_archived := 1 } else t),
            ((run_auto_archive today tasks).1.filter
              (archive_pred today)).length)
        from rfl]
    rw [Prod.mk.injEq]
    refine ⟨?_, ?_⟩
    · rw [List.map_congr_left (fun u hu => if_neg (by
        rw [hfalse u hu]
        exact Bool.false_ne_true))]
      exact List.map_id _
    · rw [List.filter_eq_nil_iff.mpr (fun u hu => by
        rw [hfalse u hu]
        exact Bool.false_ne_true)]
      rfl

/-- **C6**: for a regular (employee) actor, a task is visible exactly when
the actor's identifier is one of the elements obtained by splitting the
assignee field on "," and stripping whitespace from each element; the
encoded field "alice, bob" is visible to "bob" but not to "bo", even
though "bo" occurs as a substring of the raw field. -/
theorem C6_visibility (username field : String) :
    (visible_to_employee username field = true
      ↔ username ∈ (pySplit field ',').map pyStrip)
    ∧ visible_to_employee "bob" "alice, bob" = true
    ∧ visible_to_employee "bo" "alice, bob" = false
    ∧ List.IsInfix "bo".data "alice, bob".data := by
  refine ⟨?_, by decide, by decide, by decide⟩
  rw [visible_to_employee]
  exact List.elem_iff

end Tracker
